import Mathlib

/-!
# Verification of the title-downgrader quota/metering core and parsing layer

Shallow embedding of `src/backend/main.py` (FastAPI service "AI 标题降级器"),
its free-trial ledger (`app/models/free_trial.py`), its configuration
(`app/core/config.py`, `FREE_TRIAL_LIMIT`), and the token ledger interface.

Database tables are embedded as association lists from string keys to the
single mutable integer column the code touches (`uses_count` for
`free_trial_tracking`, the remaining-generations counter for tokens).
Python integers are embedded as `Nat`/`Int`; machine overflow does not arise.
-/

set_option maxRecDepth 4000

namespace TitleDowngrader


/-! ## Association-list tables (rows keyed by a unique string column) -/

/-- Look up the value stored for `key` (the rows have unique keys, mirroring
the `unique=True` columns `device_id` / `token`). -/
def lookupA : List (String × Nat) → String → Option Nat
  | [], _ => none
  | (k, v) :: rest, key => if k = key then some v else lookupA rest key

/-- Store `v` for `key`, overwriting an existing row or appending a new one. -/
def setA : List (String × Nat) → String → Nat → List (String × Nat)
  | [], key, v => [(key, v)]
  | (k, w) :: rest, key, v =>
    if k = key then (key, v) :: rest else (k, w) :: setA rest key v

/-! ## Free-trial ledger (`check_and_use_free_trial`, `get_trial_status`) -/

/-- The `free_trial_tracking` table: `device_id ↦ uses_count`. -/
abbrev TrialTable := List (String × Nat)

/-- Embedding of `check_and_use_free_trial(device_id, db)` from
`src/backend/main.py`: returns whether the use was granted together with the
updated table.  `limit` is `settings.FREE_TRIAL_LIMIT`. -/
def check_and_use_free_trial (limit : Nat) (device_id : String)
    (trials : TrialTable) : Bool × TrialTable :=
  if device_id = "" then (false, trials)
  else
    match lookupA trials device_id with
    | none => (true, setA trials device_id 1)
    | some c =>
      if c < limit then (true, setA trials device_id (c + 1))
      else (false, trials)

/-- Response model `TrialStatusResponse`.  `uses_remaining` is an `Int`
because the Python code computes it with (unbounded, signed) int arithmetic. -/
structure TrialStatusResponse where
  has_free_trial : Bool
  uses_remaining : Int

/-- Embedding of `get_trial_status(device_id, db)` from `src/backend/main.py`. -/
def get_trial_status (limit : Nat) (device_id : String)
    (trials : TrialTable) : TrialStatusResponse :=
  match lookupA trials device_id with
  | none => ⟨true, (limit : Int)⟩
  | some c =>
    let remaining : Int := max 0 ((limit : Int) - (c : Int))
    ⟨decide (0 < remaining), remaining⟩

/-- Number of granted (`True`) results over `n` successive
`check_and_use_free_trial` calls for the same device, threading the table. -/
def runTrialCalls (limit : Nat) (device_id : String) :
    Nat → TrialTable → Nat
  | 0, _ => 0
  | n + 1, trials =>
    let r := check_and_use_free_trial limit device_id trials
    (if r.1 then 1 else 0) + runTrialCalls limit device_id n r.2

/-! ## Token ledger (`check_and_use_token`) -/

/-- The generation-token table: `token ↦ generations_remaining`. -/
abbrev TokenTable := List (String × Nat)

/-- Modelled from the spec: `GenerationToken.use_generation` lives in
`app/models/token.py`, which is not under `src/`; per §4.1 of the spec it
"atomically decrements remaining-generations by one only if remaining > 0,
and signals success iff the decrement occurred". -/
def use_generation (remaining : Nat) : Bool × Nat :=
  if 0 < remaining then (true, remaining - 1) else (false, remaining)

/-- Embedding of `check_and_use_token(token_str, db)` from
`src/backend/main.py`: absent or empty tokens fail; otherwise the result of
the (spec-modelled) atomic `use_generation` decides success, and only a
successful consume commits the decremented counter. -/
def check_and_use_token (token_str : String) (tokens : TokenTable) :
    Bool × TokenTable :=
  if token_str = "" then (false, tokens)
  else
    match lookupA tokens token_str with
    | none => (false, tokens)
    | some r =>
      let u := use_generation r
      if u.1 then (true, setA tokens token_str u.2) else (false, tokens)

/-- Number of successful results over `n` successive `check_and_use_token`
calls for the same token, threading the table.  Because the consume operation
is atomic (spec §5), any concurrent execution of such calls is equivalent to
one of these serialized executions. -/
def runTokenCalls (token_str : String) : Nat → TokenTable → Nat
  | 0, _ => 0
  | n + 1, tokens =>
    let r := check_and_use_token token_str tokens
    (if r.1 then 1 else 0) + runTokenCalls token_str n r.2

/-! ## Python string primitives

`str.strip()` and the regex class `\s` are modelled over the ASCII whitespace
characters (Python additionally treats some non-ASCII code points as
whitespace; none of the structured text handled here contains them). -/

/-- ASCII whitespace, as stripped by `str.strip()` and matched by `\s`. -/
def isPyWs (c : Char) : Bool :=
  c = ' ' ∨ c = '\t' ∨ c = '\n' ∨ c = '\r' ∨ c = '\x0b' ∨ c = '\x0c'

/-- `text.strip()`: drop leading and trailing whitespace. -/
def pyStripL (cs : List Char) : List Char :=
  ((cs.dropWhile isPyWs).reverse.dropWhile isPyWs).reverse

/-- `text.strip()` on `String`. -/
def pyStripS (s : String) : String := String.mk (pyStripL s.data)

/-- Consume an exact literal from the front, or fail. -/
def dropLit : List Char → List Char → Option (List Char)
  | [], cs => some cs
  | _ :: _, [] => none
  | l :: ls, c :: cs => if c = l then dropLit ls cs else none

/-- `re.sub(r"^三backticks(?:json)?\s*", "", text)`: an anchored match strips a
leading fence marker (optionally tagged `json`) plus following whitespace. -/
def stripLeadFence (cs : List Char) : List Char :=
  match dropLit ['\x60', '\x60', '\x60'] cs with
  | none => cs
  | some r1 =>
    match dropLit ['j', 's', 'o', 'n'] r1 with
    | some r2 => r2.dropWhile isPyWs
    | none => r1.dropWhile isPyWs

/-- `re.sub(r"\s*三backticks$", "", text)`: without `re.MULTILINE`, `$` matches
at the end of the string or just before one final newline, so a trailing
fence marker (plus the whitespace run before it) is removed in either
position; otherwise the text is unchanged. -/
def stripTrailFence (cs : List Char) : List Char :=
  match dropLit ['\x60', '\x60', '\x60'] cs.reverse with
  | some r1 => (r1.dropWhile isPyWs).reverse
  | none =>
    match cs.reverse with
    | '\n' :: r0 =>
      match dropLit ['\x60', '\x60', '\x60'] r0 with
      | some r1 => ('\n' :: r1.dropWhile isPyWs).reverse
      | none => cs
    | _ => cs

/-- The text normalisation at the top of `parse_llm_response`:
strip, remove a leading code-fence marker, remove a trailing one, strip. -/
def preprocess (cs : List Char) : List Char :=
  pyStripL (stripTrailFence (stripLeadFence (pyStripL cs)))

/-! ## JSON values and `json.loads`

The embedding of Python's `json.loads` (default arguments). JSON numbers
with a fraction or exponent become Python floats: the model keeps their
lexeme (no claim inspects a float's numeric value). An object is kept as its
member list; lookup takes the last binding and membership any binding,
matching `dict` construction from pairs. -/

/-- A Python value produced by `json.loads`. -/
inductive JValue where
  | null
  | bool (b : Bool)
  | int (n : Int)
  | float (lexeme : String)
  | str (s : String)
  | arr (elems : List JValue)
  | obj (fields : List (String × JValue))

/-- `dict` indexing `d[k]`: the last binding wins, as in `dict(pairs)`. -/
def objGet (fs : List (String × JValue)) (k : String) : Option JValue :=
  match fs with
  | [] => none
  | kv :: rest =>
    match objGet rest k with
    | some v => some v
    | none => if kv.1 = k then some kv.2 else none

/-- JSON inter-token whitespace (`[ \t\n\r]`, as in Python's scanner). -/
def isJsonWs (c : Char) : Bool := c = ' ' ∨ c = '\t' ∨ c = '\n' ∨ c = '\r'

/-- Skip JSON whitespace. -/
def skipJsonWs (cs : List Char) : List Char := cs.dropWhile isJsonWs

/-- Hexadecimal digit value. -/
def hexVal (c : Char) : Option Nat :=
  if c.isDigit then some (c.toNat - 48)
  else if 'a' ≤ c ∧ c ≤ 'f' then some (c.toNat - 87)
  else if 'A' ≤ c ∧ c ≤ 'F' then some (c.toNat - 55)
  else none

/-- Value of a four-hex-digit escape. -/
def hex4 (a b c d : Char) : Option Nat :=
  match hexVal a, hexVal b, hexVal c, hexVal d with
  | some w, some x, some y, some z => some (((w * 16 + x) * 16 + y) * 16 + z)
  | _, _, _, _ => none

/-- Single-character escapes accepted inside JSON strings. -/
def simpleEsc (e : Char) : Option Char :=
  if e = '"' then some '"'
  else if e = '\\' then some '\\'
  else if e = '/' then some '/'
  else if e = 'b' then some '\x08'
  else if e = 'f' then some '\x0c'
  else if e = 'n' then some '\n'
  else if e = 'r' then some '\r'
  else if e = 't' then some '\t'
  else none

/-- Prepend a decoded character to a string-scan result. -/
def consChar (c : Char) : Option (List Char × List Char) →
    Option (List Char × List Char)
  | some (s, rest) => some (c :: s, rest)
  | none => none

/-- Prepend a decoded code point.  A lone surrogate (which Python would keep
in its `str`) has no `Char` representative; `Char.ofNat` then yields NUL —
the only spot where the embedding's decoded value deviates from Python, and
reachable only through an unpaired `\uD800`–`\uDFFF` escape. -/
def consCp (cp : Nat) (r : Option (List Char × List Char)) :
    Option (List Char × List Char) :=
  consChar (Char.ofNat cp) r

/-- Scan a JSON string body after the opening quote (Python `scanstring`,
`strict=True`): plain characters must be `≥ 0x20`; escapes as in
`simpleEsc`/`\uXXXX`; a high surrogate followed by `\u`-escaped low surrogate
combines into one code point; `\u` with malformed hex digits is an error.
One unit of fuel is spent per decoded character; every step consumes at least
one source character, so the callers' fuel `length + 1` never runs out. -/
def parseStringBody : Nat → List Char → Option (List Char × List Char)
  | 0, _ => none
  | _ + 1, [] => none
  | fu + 1, c :: cs =>
    if c = '"' then some ([], cs)
    else if c = '\\' then
      match cs with
      | [] => none
      | 'u' :: a :: b :: c2 :: d2 :: cs2 =>
        match hex4 a b c2 d2 with
        | none => none
        | some cp =>
          if 0xD800 ≤ cp ∧ cp ≤ 0xDBFF then
            match cs2 with
            | '\\' :: 'u' :: e :: f :: g :: h :: cs3 =>
              match hex4 e f g h with
              | some cp2 =>
                if 0xDC00 ≤ cp2 ∧ cp2 ≤ 0xDFFF then
                  consCp (0x10000 + (cp - 0xD800) * 0x400 + (cp2 - 0xDC00))
                    (parseStringBody fu cs3)
                else consCp cp (parseStringBody fu cs2)
              | none => none
            | '\\' :: 'u' :: _ => none
            | _ => consCp cp (parseStringBody fu cs2)
          else consCp cp (parseStringBody fu cs2)
      | 'u' :: _ => none
      | e :: cs2 =>
        match simpleEsc e with
        | some ch => consChar ch (parseStringBody fu cs2)
        | none => none
    else if c.toNat < 0x20 then none
    else consChar c (parseStringBody fu cs)

/-- Maximal run of ASCII decimal digits (`\d+`-style, and the digit runs of
the JSON number grammar; Python's C scanner accepts ASCII digits only). -/
def takeDigits : List Char → List Char × List Char
  | [] => ([], [])
  | c :: cs =>
    if c.isDigit then
      let r := takeDigits cs
      (c :: r.1, r.2)
    else ([], c :: cs)

/-- Numeric value of a digit run (`int()` of a digit string). -/
def digitsVal (ds : List Char) : Nat :=
  ds.foldl (fun acc c => acc * 10 + (c.toNat - 48)) 0

/-- The optional fraction group `(\.\d+)?` of the JSON number grammar:
either consume `.` plus at least one digit, or consume nothing. -/
def matchFrac : List Char → Option (List Char × List Char)
  | '.' :: r =>
    match takeDigits r with
    | ([], _) => none
    | (d :: ds, r2) => some ('.' :: d :: ds, r2)
  | _ => none

/-- The optional exponent group `([eE][-+]?\d+)?`. -/
def matchExp : List Char → Option (List Char × List Char)
  | c :: r =>
    if c = 'e' ∨ c = 'E' then
      match r with
      | s :: r2 =>
        if s = '+' ∨ s = '-' then
          match takeDigits r2 with
          | ([], _) => none
          | (d :: ds, r3) => some (c :: s :: d :: ds, r3)
        else
          match takeDigits r with
          | ([], _) => none
          | (d :: ds, r3) => some (c :: d :: ds, r3)
      | [] => none
    else none
  | [] => none

/-- Finish a JSON number whose integer digits are `intD`: with a fraction or
exponent the token is a Python float (lexeme kept), otherwise an int. -/
def afterIntPart (neg : Bool) (intD : List Char) (cs : List Char) :
    JValue × List Char :=
  let sgn : List Char := if neg then ['-'] else []
  match matchFrac cs with
  | some (fr, r1) =>
    match matchExp r1 with
    | some (ex, r2) => (.float (String.mk (sgn ++ intD ++ fr ++ ex)), r2)
    | none => (.float (String.mk (sgn ++ intD ++ fr)), r1)
  | none =>
    match matchExp cs with
    | some (ex, r2) => (.float (String.mk (sgn ++ intD ++ ex)), r2)
    | none =>
      (.int (if neg then -(digitsVal intD : Int) else (digitsVal intD : Int)),
        cs)

/-- Scan a JSON number starting at its first digit (the sign, if any, was
consumed by the caller).  The integer part is `0` or `[1-9]\d*`. -/
def parseNumber (neg : Bool) (cs : List Char) :
    Option (JValue × List Char) :=
  match cs with
  | [] => none
  | c :: rest =>
    if c = '0' then some (afterIntPart neg ['0'] rest)
    else if c.isDigit then
      match takeDigits rest with
      | (ds, r) => some (afterIntPart neg (c :: ds) r)
    else none

mutual

/-- Scan one JSON value (Python `scan_once`), fuelled by an upper bound on
nesting; `jsonLoads` supplies fuel `length + 1`, which never runs out since
every recursion level first consumes at least one character. -/
def parseValue : Nat → List Char → Option (JValue × List Char)
  | 0, _ => none
  | f + 1, cs =>
    match cs with
    | [] => none
    | c :: rest =>
      if c = '\x7b' then
        match skipJsonWs rest with
        | '\x7d' :: r2 => some (.obj [], r2)
        | r2 => parseMembers f r2 []
      else if c = '[' then
        match skipJsonWs rest with
        | ']' :: r2 => some (.arr [], r2)
        | r2 => parseElems f r2 []
      else if c = '"' then
        match parseStringBody (rest.length + 1) rest with
        | some (s, r2) => some (.str (String.mk s), r2)
        | none => none
      else if c = 't' then
        match rest with
        | 'r' :: 'u' :: 'e' :: r2 => some (.bool true, r2)
        | _ => none
      else if c = 'f' then
        match rest with
        | 'a' :: 'l' :: 's' :: 'e' :: r2 => some (.bool false, r2)
        | _ => none
      else if c = 'n' then
        match rest with
        | 'u' :: 'l' :: 'l' :: r2 => some (.null, r2)
        | _ => none
      else if c = 'N' then
        match rest with
        | 'a' :: 'N' :: r2 => some (.float "NaN", r2)
        | _ => none
      else if c = 'I' then
        match rest with
        | 'n' :: 'f' :: 'i' :: 'n' :: 'i' :: 't' :: 'y' :: r2 =>
          some (.float "Infinity", r2)
        | _ => none
      else if c = '-' then
        match rest with
        | 'I' :: 'n' :: 'f' :: 'i' :: 'n' :: 'i' :: 't' :: 'y' :: r2 =>
          some (.float "-Infinity", r2)
        | r2 => parseNumber true r2
      else if c.isDigit then
        parseNumber false (c :: rest)
      else none

/-- Scan the members of a JSON object after `{` and leading whitespace
(the empty-object case was handled by the caller). -/
def parseMembers : Nat → List Char → List (String × JValue) →
    Option (JValue × List Char)
  | 0, _, _ => none
  | f + 1, cs, acc =>
    match cs with
    | '"' :: cs2 =>
      match parseStringBody (cs2.length + 1) cs2 with
      | none => none
      | some (k, cs3) =>
        match skipJsonWs cs3 with
        | ':' :: cs4 =>
          match parseValue f (skipJsonWs cs4) with
          | none => none
          | some (v, cs5) =>
            match skipJsonWs cs5 with
            | ',' :: cs6 => parseMembers f (skipJsonWs cs6)
                (acc ++ [(String.mk k, v)])
            | '\x7d' :: cs6 => some (.obj (acc ++ [(String.mk k, v)]), cs6)
            | _ => none
        | _ => none
    | _ => none

/-- Scan the elements of a JSON array after `[` and leading whitespace
(the empty-array case was handled by the caller). -/
def parseElems : Nat → List Char → List JValue →
    Option (JValue × List Char)
  | 0, _, _ => none
  | f + 1, cs, acc =>
    match parseValue f cs with
    | none => none
    | some (v, cs2) =>
      match skipJsonWs cs2 with
      | ',' :: cs3 => parseElems f (skipJsonWs cs3) (acc ++ [v])
      | ']' :: cs3 => some (.arr (acc ++ [v]), cs3)
      | _ => none

end


/-- `json.loads(text)`: skip whitespace, scan one value, require only
whitespace to remain ("Extra data" otherwise).  All failures raise
`json.JSONDecodeError`, collapsed here to `none`. -/
def jsonLoads (cs : List Char) : Option JValue :=
  let t := skipJsonWs cs
  match parseValue (t.length + 1) t with
  | some (v, rest) => if skipJsonWs rest = [] then some v else none
  | none => none

/-- Substring test (`needle in hay` for Python `str`). -/
def strContains : List Char → List Char → Bool
  | needle, [] => needle.isEmpty
  | needle, c :: tl => List.isPrefixOf needle (c :: tl) || strContains needle tl

/-- Python's `needle in v` for a `json.loads` result: substring test on a
`str`, element equality on a `list`, key membership on a `dict`, and a
`TypeError` (`none`) on any non-container value. -/
def pyIn (needle : String) (v : JValue) : Option Bool :=
  match v with
  | .str s => some (strContains needle.data s.data)
  | .arr xs => some (xs.any fun x =>
      match x with
      | .str s => s == needle
      | _ => false)
  | .obj fs => some (fs.any fun kv => kv.1 == needle)
  | _ => none

/-! ## The regex fallback of `parse_llm_response`

`re.search` tries the pattern at each position from the left; a match of
`"downgraded"\s*:\s*"([^"]*(?:\\.[^"]*)*)"` commits, greedily, to the group
being the run of non-quote characters following the opening quote (the
`(?:\\.[^"]*)*` alternative is never reached on a successful first
alternative, since `[^"]*` already absorbs backslashes), and a match of
`"hype_score"\s*:\s*(\d+)` commits to the maximal digit run. -/

/-- The literal `"downgraded"` (quotes included). -/
def dkLit : List Char :=
  '"' :: ['d', 'o', 'w', 'n', 'g', 'r', 'a', 'd', 'e', 'd'] ++ ['"']

/-- The literal `"hype_score"` (quotes included). -/
def hsLit : List Char :=
  '"' :: ['h', 'y', 'p', 'e', '_', 's', 'c', 'o', 'r', 'e'] ++ ['"']

/-- The characters before the next `"` — the capture of
`([^"]*(?:\\.[^"]*)*)` followed by a closing `"`; fails when no quote
follows. -/
def upToQuote : List Char → Option (List Char × List Char)
  | [] => none
  | c :: cs =>
    if c = '"' then some ([], cs)
    else
      match upToQuote cs with
      | some (g, r) => some (c :: g, r)
      | none => none

/-- Try the `downgraded` pattern anchored at the head of `cs`. -/
def matchDowngradedAt (cs : List Char) : Option (List Char) :=
  match dropLit dkLit cs with
  | none => none
  | some r1 =>
    match r1.dropWhile isPyWs with
    | ':' :: r2 =>
      match r2.dropWhile isPyWs with
      | '"' :: r3 =>
        match upToQuote r3 with
        | some (g, _) => some g
        | none => none
      | _ => none
    | _ => none

/-- `re.search` for the `downgraded` pattern: leftmost successful position. -/
def findDowngraded : List Char → Option (List Char)
  | [] => none
  | c :: rest =>
    match matchDowngradedAt (c :: rest) with
    | some g => some g
    | none => findDowngraded rest

/-- Try the `hype_score` pattern anchored at the head of `cs`; the group
value goes through `int()`. -/
def matchHypeAt (cs : List Char) : Option Nat :=
  match dropLit hsLit cs with
  | none => none
  | some r1 =>
    match r1.dropWhile isPyWs with
    | ':' :: r2 =>
      match takeDigits (r2.dropWhile isPyWs) with
      | ([], _) => none
      | (d :: ds, _) => some (digitsVal (d :: ds))
    | _ => none

/-- `re.search` for the `hype_score` pattern: leftmost successful position. -/
def findHype : List Char → Option Nat
  | [] => none
  | c :: rest =>
    match matchHypeAt (c :: rest) with
    | some n => some n
    | none => findHype rest

/-- `group.replace('\\"', '"')`: left-to-right, non-overlapping. -/
def replaceBsQ : List Char → List Char
  | '\\' :: '"' :: rest => '"' :: replaceBsQ rest
  | c :: rest => c :: replaceBsQ rest
  | [] => []

/-! ## `parse_llm_response` -/

/-- How `parse_llm_response` can raise: `ValueError(f"无法解析 LLM 返回:
{text[:200]}")` — modelled by the 200-character excerpt it carries — or an
uncaught `TypeError` from `in` applied to a non-container `json.loads`
result. -/
inductive PyErr where
  | valueError (excerpt : String)
  | typeError

/-- The regex fallback step: both groups must be found, else the
`ValueError` with the truncated text is raised. -/
def regexFallback (t : List Char) : Except PyErr JValue :=
  match findDowngraded t, findHype t with
  | some g, some n =>
    .ok (.obj [("downgraded", .str (String.mk (replaceBsQ g))),
               ("hype_score", .int (n : Int))])
  | _, _ => .error (.valueError (String.mk (t.take 200)))

/-- Embedding of `parse_llm_response(text)` from `src/backend/main.py`:
normalise the text, try strict JSON (returning the parsed value unchanged
when both keys pass Python's `in`, left to right), fall back to the regex
extraction, and otherwise raise. -/
def parse_llm_response (text : String) : Except PyErr JValue :=
  let t := preprocess text.data
  match jsonLoads t with
  | some data =>
    match pyIn "downgraded" data with
    | none => .error .typeError
    | some false => regexFallback t
    | some true =>
      match pyIn "hype_score" data with
      | none => .error .typeError
      | some false => regexFallback t
      | some true => .ok data
  | none => regexFallback t

/-! ## The request orchestrator (`downgrade_title`)

The HTTP layer, prompt text and the network call itself are outside the model:
the LLM call is an oracle `Except Unit String` (its failure is the
`HTTPException(500)` raised by `call_llm`), and the pipeline records how many
LLM calls were made. -/

/-- Request model `DowngradeRequest` (intensity/language enum validation
happens in the framework layer before the handler runs). -/
structure DowngradeRequest where
  title : String
  intensity : String := "normal"
  language : String := "en"
  device_id : Option String := none
  token : Option String := none

/-- Response model `DowngradeResponse`. -/
structure DowngradeResponse where
  original : String
  downgraded : String
  hype_score : Int
  intensity : String
  language : String

/-- Python truthiness of an `Optional[str]`: `None` and `""` are falsy. -/
def optTruthy : Option String → Bool
  | none => false
  | some s => decide (s ≠ "")

/-- The database state the handler touches. -/
structure DB where
  tokens : TokenTable
  trials : TrialTable

/-- Outcome of one request: HTTP status on error, response on success, the
resulting database, and the number of LLM calls made. -/
structure PipelineOut where
  result : Except Nat DowngradeResponse
  db : DB
  llm_calls : Nat

/-- The completion step after a successful parse: index the parsed value,
clamp `hype_score` with `max(1, min(10, ...))`, and build the response.
`none` stands for the exceptions Python would raise here — `TypeError` when
the parsed value is not a `dict` or its `hype_score` entry is not a number,
and pydantic's `ValidationError` when `downgraded` is not a `str` or
`hype_score` not an integer — all of which the handler converts to a 500.
(Python would also accept a bool or an integral float for `hype_score`,
coercing through `max`/`min` into a value inside `[1, 10]`; the model folds
those rarities into the failure case.) -/
def finalize (original intensity language : String) (v : JValue) :
    Option DowngradeResponse :=
  match v with
  | .obj fs =>
    match objGet fs "downgraded", objGet fs "hype_score" with
    | some (.str d), some (.int n) =>
      some ⟨original, d, max 1 (min 10 n), intensity, language⟩
    | _, _ => none
  | _ => none

/-- The generation phase (runs only after authorization succeeded): one LLM
call; any `call_llm` failure, parse failure or finalization failure becomes a
500 (`except HTTPException: raise` / the generic `except` branch). -/
def runGenerate (req : DowngradeRequest) (db : DB)
    (llm : Except Unit String) : PipelineOut :=
  match llm with
  | .error _ => ⟨.error 500, db, 1⟩
  | .ok text =>
    match parse_llm_response text with
    | .error _ => ⟨.error 500, db, 1⟩
    | .ok v =>
      match finalize (pyStripS req.title) req.intensity req.language v with
      | none => ⟨.error 500, db, 1⟩
      | some resp => ⟨.ok resp, db, 1⟩

/-- Embedding of the `POST /api/downgrade` handler `downgrade_title` from
`src/backend/main.py`: blank title → 400; a (truthy) token selects the token
path only, failure → 402 with no trial fallback; otherwise a (truthy)
device_id selects the trial path only, failure → 402; neither → 400. -/
def downgrade_title (limit : Nat) (req : DowngradeRequest) (db : DB)
    (llm : Except Unit String) : PipelineOut :=
  if pyStripS req.title = "" then ⟨.error 400, db, 0⟩
  else if optTruthy req.token then
    match check_and_use_token (req.token.getD "") db.tokens with
    | (true, tokens2) => runGenerate req ⟨tokens2, db.trials⟩ llm
    | (false, tokens2) => ⟨.error 402, ⟨tokens2, db.trials⟩, 0⟩
  else if optTruthy req.device_id then
    match check_and_use_free_trial limit (req.device_id.getD "") db.trials with
    | (true, trials2) => runGenerate req ⟨db.tokens, trials2⟩ llm
    | (false, trials2) => ⟨.error 402, ⟨db.tokens, trials2⟩, 0⟩
  else ⟨.error 400, db, 0⟩

/-! ## JSON encoding (C9)

The spec's parser round-trip property quantifies over "JSON-encoding the
pair"; the encoder below renders `json.dumps`'s canonical output
`{"downgraded": <string>, "hype_score": <int>}` (with `ensure_ascii=False`
style escaping: quote, backslash and control characters escaped). -/

/-- Lower-case hexadecimal digit character for `n < 16`. -/
def hexDigit (n : Nat) : Char :=
  if n < 10 then Char.ofNat (48 + n) else Char.ofNat (87 + n)

/-- Modelled from the spec: JSON encoding of one character of a string value
(the repository has no encoder — the round-trip property supplies one). -/
def escChar (c : Char) : List Char :=
  if c = '"' then ['\\', '"']
  else if c = '\\' then ['\\', '\\']
  else if c = '\n' then ['\\', 'n']
  else if c = '\t' then ['\\', 't']
  else if c = '\r' then ['\\', 'r']
  else if c.toNat < 0x20 then
    ['\\', 'u', '0', '0', hexDigit (c.toNat / 16), hexDigit (c.toNat % 16)]
  else [c]

/-- JSON encoding of a string body. -/
def escStr : List Char → List Char
  | [] => []
  | c :: cs => escChar c ++ escStr cs

/-- Decimal digits of `n`, most significant first. -/
def natDigits (n : Nat) : List Char :=
  if _h : n < 10 then [Char.ofNat (48 + n)]
  else natDigits (n / 10) ++ [Char.ofNat (48 + n % 10)]
termination_by n
decreasing_by exact Nat.div_lt_self (by omega) (by omega)

/-- The integer lexeme produced by JSON encoding. -/
def intLexL (n : Int) : List Char :=
  if n < 0 then '-' :: natDigits n.natAbs else natDigits n.toNat

/-- The characters of `downgraded`. -/
def dkChars : List Char := ['d', 'o', 'w', 'n', 'g', 'r', 'a', 'd', 'e', 'd']

/-- The characters of `hype_score`. -/
def hkChars : List Char := ['h', 'y', 'p', 'e', '_', 's', 'c', 'o', 'r', 'e']

/-- Modelled from the spec: "JSON-encoding the pair" (the repository has no
encoder) — `json.dumps` output for the object with the two fields. -/
def encodePairL (d : List Char) (n : Int) : List Char :=
  '\x7b' :: '"' :: (dkChars ++ ('"' :: ':' :: ' ' :: '"' ::
    (escStr d ++ ('"' :: ',' :: ' ' :: '"' ::
      (hkChars ++ ('"' :: ':' :: ' ' ::
        (intLexL n ++ ['\x7d'])))))))

/-- `encodePairL` on `String`. -/
def encodePair (d : String) (n : Int) : String :=
  String.mk (encodePairL d.data n)

/-! ## Characterizing `parse_llm_response` (C8) -/

/-- The strict-JSON step "yields both fields": `json.loads` succeeds and both
keys pass Python's `in` test on the result. -/
def strictBoth (t : List Char) : Bool :=
  match jsonLoads t with
  | some d => (pyIn "downgraded" d == some true) &&
      (pyIn "hype_score" d == some true)
  | none => false

/-- The strict-JSON step raises `TypeError`: `json.loads` succeeds but the
(left-to-right, short-circuiting) `in` test hits a non-container value. -/
def strictTypeErr (t : List Char) : Bool :=
  match jsonLoads t with
  | some d =>
    match pyIn "downgraded" d with
    | none => true
    | some false => false
    | some true => (pyIn "hype_score" d).isNone
  | none => false

/-- The regex fallback finds both groups. -/
def regexBoth (t : List Char) : Bool :=
  (findDowngraded t).isSome && (findHype t).isSome

theorem lookupA_setA_self (l : List (String × Nat)) (k : String) (v : Nat) :
    lookupA (setA l k v) k = some v := by
  induction l with
  | nil => simp [setA, lookupA]
  | cons hd tl ih =>
    obtain ⟨k', v'⟩ := hd
    by_cases h : k' = k
    · simp [setA, h, lookupA]
    · simp [setA, h, lookupA, ih]

/-! ## Ledger lemmas -/

theorem runTokenCalls_formula (t : String) (ht : t ≠ "") :
    ∀ (n : Nat) (tokens : TokenTable) (r : Nat),
      lookupA tokens t = some r → runTokenCalls t n tokens = min n r := by
  intro n
  induction n with
  | zero => intro tokens r _; simp [runTokenCalls]
  | succ n ih =>
    intro tokens r hr
    by_cases hpos : 0 < r
    · have hstep : check_and_use_token t tokens =
          (true, setA tokens t (r - 1)) := by
        simp [check_and_use_token, ht, hr, use_generation, hpos]
      have hnext : lookupA (setA tokens t (r - 1)) t = some (r - 1) :=
        lookupA_setA_self tokens t (r - 1)
      have := ih (setA tokens t (r - 1)) (r - 1) hnext
      simp [runTokenCalls, hstep, this]
      omega
    · have hr0 : r = 0 := by omega
      subst hr0
      have hstep : check_and_use_token t tokens = (false, tokens) := by
        simp [check_and_use_token, ht, hr, use_generation]
      have := ih tokens 0 hr
      simp [runTokenCalls, hstep, this]

theorem runTrialCalls_empty_device (limit : Nat) :
    ∀ (n : Nat) (trials : TrialTable), runTrialCalls limit "" n trials = 0 := by
  intro n
  induction n with
  | zero => intro trials; simp [runTrialCalls]
  | succ n ih =>
    intro trials
    have hstep : check_and_use_free_trial limit "" trials = (false, trials) := by
      simp [check_and_use_free_trial]
    simp [runTrialCalls, hstep, ih]

theorem runTrialCalls_existing (limit : Nat) (d : String) (hd : d ≠ "") :
    ∀ (n : Nat) (trials : TrialTable) (c : Nat),
      lookupA trials d = some c →
      runTrialCalls limit d n trials = min n (limit - c) := by
  intro n
  induction n with
  | zero => intro trials c _; simp [runTrialCalls]
  | succ n ih =>
    intro trials c hc
    by_cases hlt : c < limit
    · have hstep : check_and_use_free_trial limit d trials =
          (true, setA trials d (c + 1)) := by
        simp [check_and_use_free_trial, hd, hc, hlt]
      have hnext : lookupA (setA trials d (c + 1)) d = some (c + 1) :=
        lookupA_setA_self trials d (c + 1)
      have := ih (setA trials d (c + 1)) (c + 1) hnext
      simp [runTrialCalls, hstep, this]
      omega
    · have hstep : check_and_use_free_trial limit d trials = (false, trials) := by
        simp [check_and_use_free_trial, hd, hc, hlt]
      have := ih trials c hc
      simp [runTrialCalls, hstep, this]
      omega

theorem runTrialCalls_fresh (limit : Nat) (d : String) (hd : d ≠ "")
    (n : Nat) (trials : TrialTable) (h : lookupA trials d = none) :
    runTrialCalls limit d n trials = min n (max limit 1) := by
  cases n with
  | zero => simp [runTrialCalls]
  | succ n =>
    have hstep : check_and_use_free_trial limit d trials =
        (true, setA trials d 1) := by
      simp [check_and_use_free_trial, hd, h]
    have hnext : lookupA (setA trials d 1) d = some 1 :=
      lookupA_setA_self trials d 1
    have := runTrialCalls_existing limit d hd n (setA trials d 1) 1 hnext
    simp [runTrialCalls, hstep, this]
    omega

/-! ## Claims about the quota ledger -/

/-- C1: for every generation token, `check_and_use_token` succeeds exactly
`remaining` times before permanently failing (over any number `n` of calls the
success count is `min n remaining`), and — the consume being atomic, so that
concurrent calls serialize — two calls racing on a token with exactly one unit
of balance produce exactly one success. -/
theorem token_consume_exactly_remaining (t : String) (tokens : TokenTable)
    (r n : Nat) (ht : t ≠ "") (hr : lookupA tokens t = some r) :
    runTokenCalls t n tokens = min n r ∧
      (r = 1 → runTokenCalls t 2 tokens = 1) := by
  constructor
  · exact runTokenCalls_formula t ht n tokens r hr
  · intro h1
    subst h1
    simpa using runTokenCalls_formula t ht 2 tokens 1 hr

/-- Witness for C1 at a concrete input: a token with one remaining unit,
two calls, exactly one success. -/
theorem token_consume_exactly_remaining_witness :
    runTokenCalls "tok" 2 [("tok", 1)] = min 2 1 ∧
      (1 = 1 → runTokenCalls "tok" 2 [("tok", 1)] = 1) :=
  token_consume_exactly_remaining "tok" [("tok", 1)] 1 2
    (by decide) (by decide)

/-- C2 (counterexample): with the configured free-trial limit 0, the first
call from an unseen device still succeeds, and the subsequent trial status
reports `uses_remaining = 0`, not `limit - 1 = -1`. -/
theorem first_trial_call_status_cex :
    (check_and_use_free_trial 0 "d" []).1 = true ∧
      (get_trial_status 0 "d" (check_and_use_free_trial 0 "d" []).2).uses_remaining = 0 ∧
      ((0 : Int) - 1 ≠ 0) := by
  refine ⟨by decide, by decide, by decide⟩

/-- C2 (amended): for every device with a nonempty identifier and no prior
tracking record, the first `check_and_use_free_trial` call succeeds and
creates a record with uses-count 1; for every configured limit ≥ 1 the
subsequent `get_trial_status` reports `uses_remaining = limit - 1`. -/
theorem first_trial_call_succeeds (limit : Nat) (d : String)
    (trials : TrialTable) (hd : d ≠ "") (hfresh : lookupA trials d = none)
    (hlim : 1 ≤ limit) :
    (check_and_use_free_trial limit d trials).1 = true ∧
      lookupA (check_and_use_free_trial limit d trials).2 d = some 1 ∧
      (get_trial_status limit d
          (check_and_use_free_trial limit d trials).2).uses_remaining =
        (limit : Int) - 1 := by
  have hstep : check_and_use_free_trial limit d trials =
      (true, setA trials d 1) := by
    simp [check_and_use_free_trial, hd, hfresh]
  have hnext : lookupA (setA trials d 1) d = some 1 :=
    lookupA_setA_self trials d 1
  refine ⟨by simp [hstep], by simp [hstep, hnext], ?_⟩
  simp [hstep, get_trial_status, hnext]
  omega

/-- Witness for C2 (amended) at the default configuration `limit = 1`. -/
theorem first_trial_call_succeeds_witness :
    (check_and_use_free_trial 1 "device1" []).1 = true ∧
      lookupA (check_and_use_free_trial 1 "device1" []).2 "device1" = some 1 ∧
      (get_trial_status 1 "device1"
          (check_and_use_free_trial 1 "device1" []).2).uses_remaining =
        (1 : Int) - 1 :=
  first_trial_call_succeeds 1 "device1" [] (by decide) (by decide) (by decide)

/-- C3 (counterexample): with the configured limit 0, one call from an unseen
device is granted, so the number of successful calls exceeds the limit. -/
theorem trial_limit_zero_cex :
    runTrialCalls 0 "d" 1 [] = 1 ∧ ¬ runTrialCalls 0 "d" 1 [] ≤ 0 := by
  refine ⟨by decide, by decide⟩

/-- C3 (amended): starting from a device with no tracking record, the number
of granted `check_and_use_free_trial` calls never exceeds `max limit 1`
(the first call from an unseen device is always granted, even when the
configured limit is 0); in particular for every limit ≥ 1 the number of
granted calls never exceeds the limit. -/
theorem trial_successes_bounded (limit : Nat) (d : String) (n : Nat)
    (trials : TrialTable) (hfresh : lookupA trials d = none) :
    runTrialCalls limit d n trials ≤ max limit 1 ∧
      (1 ≤ limit → runTrialCalls limit d n trials ≤ limit) := by
  by_cases hd : d = ""
  · subst hd
    simp [runTrialCalls_empty_device]
  · have := runTrialCalls_fresh limit d hd n trials hfresh
    rw [this]
    omega

/-- Witness for C3 (amended) at the default configuration `limit = 1`,
five calls against a fresh device. -/
theorem trial_successes_bounded_witness :
    runTrialCalls 1 "device1" 5 [] ≤ max 1 1 ∧
      (1 ≤ 1 → runTrialCalls 1 "device1" 5 [] ≤ 1) :=
  trial_successes_bounded 1 "device1" 5 [] (by decide)

/-- C4: for every device whose tracking record has uses-count at or above the
configured limit, every further `check_and_use_free_trial` call fails and
leaves the table (in particular the uses-count) unchanged. -/
theorem exhausted_trial_always_fails (limit : Nat) (d : String)
    (trials : TrialTable) (c : Nat) (hc : lookupA trials d = some c)
    (hex : limit ≤ c) :
    check_and_use_free_trial limit d trials = (false, trials) := by
  by_cases hd : d = ""
  · simp [check_and_use_free_trial, hd]
  · have : ¬ c < limit := by omega
    simp [check_and_use_free_trial, hd, hc, this]

/-- Witness for C4: an exhausted device at the default limit 1. -/
theorem exhausted_trial_always_fails_witness :
    check_and_use_free_trial 1 "device1" [("device1", 1)] =
      (false, [("device1", 1)]) :=
  exhausted_trial_always_fails 1 "device1" [("device1", 1)] 1
    (by decide) (by decide)

/-- C10: for every device with no tracking record, `get_trial_status` reports
`has_free_trial = true` and `uses_remaining = limit` (so at limit 0 it is
`true` with 0 remaining); for every device with a record it reports
`uses_remaining = max 0 (limit - uses_count)` and `has_free_trial` holds
exactly when the remaining count is positive. -/
theorem trial_status_spec (limit : Nat) (d : String) (trials : TrialTable) :
    (lookupA trials d = none →
      get_trial_status limit d trials = ⟨true, (limit : Int)⟩) ∧
      (∀ c, lookupA trials d = some c →
        (get_trial_status limit d trials).uses_remaining =
            max 0 ((limit : Int) - (c : Int)) ∧
          ((get_trial_status limit d trials).has_free_trial = true ↔
            0 < (get_trial_status limit d trials).uses_remaining)) := by
  constructor
  · intro h
    simp [get_trial_status, h]
  · intro c hc
    refine ⟨by simp [get_trial_status, hc], ?_⟩
    simp [get_trial_status, hc]

/-- Witness for C10: fresh device at limit 0 — trial reported as available
with zero uses remaining. -/
theorem trial_status_spec_witness :
    get_trial_status 0 "d" [] = ⟨true, (0 : Int)⟩ :=
  (trial_status_spec 0 "d" []).1 (by decide)

/-! ## Orchestrator lemmas -/

theorem check_and_use_token_fail (t : String) (toks : TokenTable)
    (h : (check_and_use_token t toks).1 = false) :
    check_and_use_token t toks = (false, toks) := by
  unfold check_and_use_token at h ⊢
  split
  · rfl
  · cases hl : lookupA toks t with
    | none => simp [hl]
    | some r =>
      simp only [hl] at h ⊢
      split
      · simp_all
      · rfl

theorem check_and_use_free_trial_fail (limit : Nat) (d : String)
    (trials : TrialTable)
    (h : (check_and_use_free_trial limit d trials).1 = false) :
    check_and_use_free_trial limit d trials = (false, trials) := by
  unfold check_and_use_free_trial at h ⊢
  split
  · rfl
  · cases hl : lookupA trials d with
    | none => simp_all
    | some c =>
      simp only [hl] at h ⊢
      split
      · simp_all
      · rfl

theorem runGenerate_status (req : DowngradeRequest) (db : DB)
    (llm : Except Unit String) :
    (runGenerate req db llm).result = .error 500 ∨
      ∃ resp, (runGenerate req db llm).result = .ok resp := by
  unfold runGenerate
  cases llm with
  | error e => simp
  | ok text =>
    cases hp : parse_llm_response text with
    | error e => simp [hp]
    | ok v =>
      cases hf : finalize (pyStripS req.title) req.intensity req.language v with
      | none => simp [hp, hf]
      | some resp => simp [hp, hf]

theorem runGenerate_calls (req : DowngradeRequest) (db : DB)
    (llm : Except Unit String) : (runGenerate req db llm).llm_calls = 1 := by
  unfold runGenerate
  cases llm with
  | error e => simp
  | ok text =>
    cases hp : parse_llm_response text with
    | error e => simp [hp]
    | ok v =>
      cases hf : finalize (pyStripS req.title) req.intensity req.language v with
      | none => simp [hp, hf]
      | some resp => simp [hp, hf]

theorem runGenerate_db (req : DowngradeRequest) (db : DB)
    (llm : Except Unit String) : (runGenerate req db llm).db = db := by
  unfold runGenerate
  cases llm with
  | error e => simp
  | ok text =>
    cases hp : parse_llm_response text with
    | error e => simp [hp]
    | ok v =>
      cases hf : finalize (pyStripS req.title) req.intensity req.language v with
      | none => simp [hp, hf]
      | some resp => simp [hp, hf]

theorem runGenerate_ok_finalize (req : DowngradeRequest) (db : DB)
    (llm : Except Unit String) (resp : DowngradeResponse)
    (h : (runGenerate req db llm).result = .ok resp) :
    ∃ text v, llm = .ok text ∧ parse_llm_response text = .ok v ∧
      finalize (pyStripS req.title) req.intensity req.language v =
        some resp := by
  unfold runGenerate at h
  cases llm with
  | error e => simp at h
  | ok text =>
    cases hp : parse_llm_response text with
    | error e => simp [hp] at h
    | ok v =>
      cases hf : finalize (pyStripS req.title) req.intensity req.language v with
      | none => simp [hp, hf] at h
      | some resp2 =>
        simp [hp, hf] at h
        exact ⟨text, v, rfl, hp, by rw [hf, h]⟩

/-! ## Claims about the orchestrator -/

/-- C5: for every downgrade request that passes the blank-title validation,
the authorization dispatch is exclusive: a (truthy) supplied token selects
the token path only — the trial table is never touched, and a failing token
is a hard 402 with the whole database unchanged (no free-trial fallback); a
(truthy) device identifier alone selects the trial path only — the token
table is never touched, and a failing trial is a 402 with the database
unchanged; neither supplied is a 400 with the database unchanged. -/
theorem authorization_dispatch_exclusive (limit : Nat)
    (req : DowngradeRequest) (db : DB) (llm : Except Unit String)
    (htitle : pyStripS req.title ≠ "") :
    (optTruthy req.token = true →
      (downgrade_title limit req db llm).db.trials = db.trials ∧
        ((check_and_use_token (req.token.getD "") db.tokens).1 = false →
          (downgrade_title limit req db llm).result = .error 402 ∧
            (downgrade_title limit req db llm).db = db)) ∧
      (optTruthy req.token = false → optTruthy req.device_id = true →
        (downgrade_title limit req db llm).db.tokens = db.tokens ∧
          ((check_and_use_free_trial limit (req.device_id.getD "")
                db.trials).1 = false →
            (downgrade_title limit req db llm).result = .error 402 ∧
              (downgrade_title limit req db llm).db = db)) ∧
      (optTruthy req.token = false → optTruthy req.device_id = false →
        (downgrade_title limit req db llm).result = .error 400 ∧
          (downgrade_title limit req db llm).db = db) := by
  refine ⟨?_, ?_, ?_⟩
  · intro htok
    rcases hck : check_and_use_token (req.token.getD "") db.tokens with
      ⟨ok, toks2⟩
    cases ok with
    | true =>
      constructor
      · simp [downgrade_title, htitle, htok, hck, runGenerate_db]
      · intro hfail
        simp at hfail
    | false =>
      have heq : toks2 = db.tokens := by
        have := check_and_use_token_fail (req.token.getD "") db.tokens
          (by rw [hck])
        rw [hck] at this
        exact (Prod.mk.injEq _ _ _ _).mp this |>.2
      subst heq
      constructor
      · simp [downgrade_title, htitle, htok, hck]
      · intro _
        constructor
        · simp [downgrade_title, htitle, htok, hck]
        · simp [downgrade_title, htitle, htok, hck]
  · intro htok hdev
    rcases hck : check_and_use_free_trial limit (req.device_id.getD "")
        db.trials with ⟨ok, trials2⟩
    cases ok with
    | true =>
      constructor
      · simp [downgrade_title, htitle, htok, hdev, hck, runGenerate_db]
      · intro hfail
        simp at hfail
    | false =>
      have heq : trials2 = db.trials := by
        have := check_and_use_free_trial_fail limit (req.device_id.getD "")
          db.trials (by rw [hck])
        rw [hck] at this
        exact (Prod.mk.injEq _ _ _ _).mp this |>.2
      subst heq
      constructor
      · simp [downgrade_title, htitle, htok, hdev, hck]
      · intro _
        constructor
        · simp [downgrade_title, htitle, htok, hdev, hck]
        · simp [downgrade_title, htitle, htok, hdev, hck]
  · intro htok hdev
    constructor
    · simp [downgrade_title, htitle, htok, hdev]
    · simp [downgrade_title, htitle, htok, hdev]

/-- Witness for C5: an invalid token is a hard 402 with the trial table
untouched even though the device also has an unused trial. -/
theorem authorization_dispatch_exclusive_witness :
    (downgrade_title 1
        ⟨"Big title", "normal", "en", some "device1", some "tokX"⟩
        ⟨[], []⟩ (.ok "ignored")).result = .error 402 ∧
      (downgrade_title 1
        ⟨"Big title", "normal", "en", some "device1", some "tokX"⟩
        ⟨[], []⟩ (.ok "ignored")).db = ⟨[], []⟩ :=
  ((authorization_dispatch_exclusive 1
      ⟨"Big title", "normal", "en", some "device1", some "tokX"⟩
      ⟨[], []⟩ (.ok "ignored") (by decide)).1 (by decide)).2 (by decide)

/-- C6: whenever the request is rejected at validation or authorization
(HTTP 400 or 402 — blank title, invalid/exhausted token, exhausted trial, or
missing credentials), no LLM call is made. -/
theorem no_llm_call_on_rejection (limit : Nat) (req : DowngradeRequest)
    (db : DB) (llm : Except Unit String)
    (h : (downgrade_title limit req db llm).result = .error 400 ∨
      (downgrade_title limit req db llm).result = .error 402) :
    (downgrade_title limit req db llm).llm_calls = 0 := by
  by_cases h1 : pyStripS req.title = ""
  · simp [downgrade_title, h1]
  · by_cases h2 : optTruthy req.token
    · rcases hck : check_and_use_token (req.token.getD "") db.tokens with
        ⟨ok, toks2⟩
      cases ok with
      | true =>
        exfalso
        have hres : (downgrade_title limit req db llm).result =
            (runGenerate req ⟨toks2, db.trials⟩ llm).result := by
          simp [downgrade_title, h1, h2, hck]
        rcases runGenerate_status req ⟨toks2, db.trials⟩ llm with h5 | ⟨resp, hr⟩
        · rw [hres, h5] at h
          rcases h with h | h <;> simp at h
        · rw [hres, hr] at h
          rcases h with h | h <;> simp at h
      | false => simp [downgrade_title, h1, h2, hck]
    · by_cases h3 : optTruthy req.device_id
      · rcases hck : check_and_use_free_trial limit (req.device_id.getD "")
            db.trials with ⟨ok, trials2⟩
        cases ok with
        | true =>
          exfalso
          have hres : (downgrade_title limit req db llm).result =
              (runGenerate req ⟨db.tokens, trials2⟩ llm).result := by
            simp [downgrade_title, h1, h2, h3, hck]
          rcases runGenerate_status req ⟨db.tokens, trials2⟩ llm with
            h5 | ⟨resp, hr⟩
          · rw [hres, h5] at h
            rcases h with h | h <;> simp at h
          · rw [hres, hr] at h
            rcases h with h | h <;> simp at h
        | false => simp [downgrade_title, h1, h2, h3, hck]
      · simp [downgrade_title, h1, h2, h3]

/-- Witness for C6: a request with neither credential is rejected with 400
and zero LLM calls. -/
theorem no_llm_call_on_rejection_witness :
    (downgrade_title 1 ⟨"Big title", "normal", "en", none, none⟩
        ⟨[], []⟩ (.ok "ignored")).llm_calls = 0 :=
  no_llm_call_on_rejection 1 ⟨"Big title", "normal", "en", none, none⟩
    ⟨[], []⟩ (.ok "ignored") (Or.inl rfl)

/-- C7: every successful downgrade response carries `hype_score` in
`[1, 10]`; the completion step clamps the raw parsed value with
`max(1, min(10, raw))`, so raw values below 1 become 1 and raw values above
10 become 10. -/
theorem hype_score_clamped :
    (∀ (limit : Nat) (req : DowngradeRequest) (db : DB)
        (llm : Except Unit String) (resp : DowngradeResponse),
      (downgrade_title limit req db llm).result = .ok resp →
        1 ≤ resp.hype_score ∧ resp.hype_score ≤ 10) ∧
      (∀ (o i l : String) (fs : List (String × JValue))
          (resp : DowngradeResponse) (n : Int),
        finalize o i l (.obj fs) = some resp →
          objGet fs "hype_score" = some (.int n) →
          resp.hype_score = max 1 (min 10 n) ∧
            (n < 1 → resp.hype_score = 1) ∧
            (10 < n → resp.hype_score = 10)) := by
  have hfin : ∀ (o i l : String) (v : JValue) (resp : DowngradeResponse),
      finalize o i l v = some resp →
      ∃ d n, resp.hype_score = max 1 (min 10 n) ∧
        objGet (match v with | .obj fs => fs | _ => []) "downgraded" =
          some (.str d) := by
    intro o i l v resp h
    unfold finalize at h
    cases v with
    | obj fs =>
      rcases hd : objGet fs "downgraded" with _ | d
      · simp [hd] at h
      · rcases hn : objGet fs "hype_score" with _ | n
        · simp [hd, hn] at h
        · cases d with
          | str ds =>
            cases n with
            | int nv =>
              simp [hd, hn] at h
              exact ⟨ds, nv, by rw [← h], by simp [hd]⟩
            | null => simp [hd, hn] at h
            | bool b => simp [hd, hn] at h
            | float lx => simp [hd, hn] at h
            | str s2 => simp [hd, hn] at h
            | arr xs => simp [hd, hn] at h
            | obj fs2 => simp [hd, hn] at h
          | null => simp [hd] at h
          | bool b => simp [hd] at h
          | int nv => simp [hd] at h
          | float lx => simp [hd] at h
          | arr xs => simp [hd] at h
          | obj fs2 => simp [hd] at h
    | null => simp at h
    | bool b => simp at h
    | int nv => simp at h
    | float lx => simp at h
    | str s => simp at h
    | arr xs => simp at h
  constructor
  · intro limit req db llm resp h
    have : ∃ reqdb llm2, (runGenerate req reqdb llm2).result = .ok resp := by
      by_cases h1 : pyStripS req.title = ""
      · simp [downgrade_title, h1] at h
      · by_cases h2 : optTruthy req.token
        · rcases hck : check_and_use_token (req.token.getD "") db.tokens with
            ⟨ok, toks2⟩
          cases ok with
          | true =>
            refine ⟨⟨toks2, db.trials⟩, llm, ?_⟩
            rw [← h]
            simp [downgrade_title, h1, h2, hck]
          | false => simp [downgrade_title, h1, h2, hck] at h
        · by_cases h3 : optTruthy req.device_id
          · rcases hck : check_and_use_free_trial limit
                (req.device_id.getD "") db.trials with ⟨ok, trials2⟩
            cases ok with
            | true =>
              refine ⟨⟨db.tokens, trials2⟩, llm, ?_⟩
              rw [← h]
              simp [downgrade_title, h1, h2, h3, hck]
            | false => simp [downgrade_title, h1, h2, h3, hck] at h
          · simp [downgrade_title, h1, h2, h3] at h
    obtain ⟨reqdb, llm2, hrg⟩ := this
    obtain ⟨text, v, _, _, hf⟩ := runGenerate_ok_finalize req reqdb llm2 resp hrg
    obtain ⟨d, n, hh, _⟩ := hfin _ _ _ _ _ hf
    rw [hh]
    omega
  · intro o i l fs resp n hf hn
    unfold finalize at hf
    rcases hd : objGet fs "downgraded" with _ | d
    · simp [hd] at hf
    · cases d with
      | str ds =>
        simp [hd, hn] at hf
        refine ⟨by rw [← hf], ?_, ?_⟩ <;> intro hc <;> rw [← hf] <;>
          simp <;> omega
      | null => simp [hd, hn] at hf
      | bool b => simp [hd, hn] at hf
      | int nv => simp [hd, hn] at hf
      | float lx => simp [hd, hn] at hf
      | arr xs => simp [hd, hn] at hf
      | obj fs2 => simp [hd, hn] at hf

theorem regexFallback_characterization (t : List Char) :
    (∀ ex, regexFallback t = .error (.valueError ex) →
        ex = String.mk (t.take 200) ∧ ex.length ≤ 200) ∧
      ((∃ ex, regexFallback t = .error (.valueError ex)) ↔
        regexBoth t = false) ∧
      (regexFallback t ≠ .error .typeError) ∧
      (∀ v, regexFallback t = .ok v →
        ∃ g k, findDowngraded t = some g ∧ findHype t = some k ∧
          v = .obj [("downgraded", .str (String.mk (replaceBsQ g))),
                    ("hype_score", .int (k : Int))]) := by
  have hlen : (String.mk (t.take 200)).length ≤ 200 := by
    have h1 : (String.mk (t.take 200)).length = (t.take 200).length := rfl
    rw [h1, List.length_take]
    omega
  rcases hd : findDowngraded t with _ | g <;>
    rcases hh : findHype t with _ | k <;>
    simp [regexFallback, regexBoth, hd, hh, hlen]

/-- C8 (amended): for every input text (writing `t` for its normalised
form), `parse_llm_response` (1) on a `ValueError` failure carries exactly the
≤200-character excerpt `t[:200]`; (2) fails with that `ValueError` precisely
when the strict-JSON step does not yield both fields (without a `TypeError`)
and the regex fallback does not find both groups; (3) raises `TypeError`
precisely when the strict parse yields a non-container value to the `in`
test; and (4) every returned value is either the strict `json.loads` value
unchanged — with no guarantee its fields are a string and an integer — or
the regex fallback's string–integer pair. -/
theorem parse_llm_response_characterization (text : String) :
    (∀ ex, parse_llm_response text = .error (.valueError ex) →
        ex = String.mk ((preprocess text.data).take 200) ∧
          ex.length ≤ 200) ∧
      ((∃ ex, parse_llm_response text = .error (.valueError ex)) ↔
        (strictBoth (preprocess text.data) = false ∧
          strictTypeErr (preprocess text.data) = false ∧
          regexBoth (preprocess text.data) = false)) ∧
      (parse_llm_response text = .error .typeError ↔
        strictTypeErr (preprocess text.data) = true) ∧
      (∀ v, parse_llm_response text = .ok v →
        (jsonLoads (preprocess text.data) = some v ∧
            strictBoth (preprocess text.data) = true) ∨
          (∃ g k, findDowngraded (preprocess text.data) = some g ∧
            findHype (preprocess text.data) = some k ∧
            v = .obj [("downgraded", .str (String.mk (replaceBsQ g))),
                      ("hype_score", .int (k : Int))])) := by
  obtain ⟨hrf1, hrf2, hrf3, hrf4⟩ :=
    regexFallback_characterization (preprocess text.data)
  rcases hj : jsonLoads (preprocess text.data) with _ | d
  · have hpe : parse_llm_response text = regexFallback (preprocess text.data) := by
      simp [parse_llm_response, hj]
    rw [hpe]
    refine ⟨hrf1, ?_, ?_, ?_⟩
    · rw [hrf2]
      simp [strictBoth, strictTypeErr, hj]
    · simp [strictTypeErr, hj]
      exact fun h => hrf3 h
    · intro v hv
      exact Or.inr (hrf4 v hv)
  · rcases hp1 : pyIn "downgraded" d with _ | b1
    · have hpe : parse_llm_response text = .error .typeError := by
        simp [parse_llm_response, hj, hp1]
      rw [hpe]
      refine ⟨?_, ?_, ?_, ?_⟩
      · intro ex hex
        exact absurd hex (by simp)
      · simp [strictTypeErr, hj, hp1]
      · simp [strictTypeErr, hj, hp1]
      · intro v hv
        exact absurd hv (by simp)
    · cases b1 with
      | false =>
        have hpe : parse_llm_response text =
            regexFallback (preprocess text.data) := by
          simp [parse_llm_response, hj, hp1]
        rw [hpe]
        refine ⟨hrf1, ?_, ?_, ?_⟩
        · rw [hrf2]
          simp [strictBoth, strictTypeErr, hj, hp1]
        · simp [strictTypeErr, hj, hp1]
          exact fun h => hrf3 h
        · intro v hv
          exact Or.inr (hrf4 v hv)
      | true =>
        rcases hp2 : pyIn "hype_score" d with _ | b2
        · have hpe : parse_llm_response text = .error .typeError := by
            simp [parse_llm_response, hj, hp1, hp2]
          rw [hpe]
          refine ⟨?_, ?_, ?_, ?_⟩
          · intro ex hex
            exact absurd hex (by simp)
          · simp [strictTypeErr, strictBoth, hj, hp1, hp2]
          · simp [strictTypeErr, hj, hp1, hp2]
          · intro v hv
            exact absurd hv (by simp)
        · cases b2 with
          | false =>
            have hpe : parse_llm_response text =
                regexFallback (preprocess text.data) := by
              simp [parse_llm_response, hj, hp1, hp2]
            rw [hpe]
            refine ⟨hrf1, ?_, ?_, ?_⟩
            · rw [hrf2]
              simp [strictBoth, strictTypeErr, hj, hp1, hp2]
            · simp [strictTypeErr, hj, hp1, hp2]
              exact fun h => hrf3 h
            · intro v hv
              exact Or.inr (hrf4 v hv)
          | true =>
            have hpe : parse_llm_response text = .ok d := by
              simp [parse_llm_response, hj, hp1, hp2]
            rw [hpe]
            refine ⟨?_, ?_, ?_, ?_⟩
            · intro ex hex
              exact absurd hex (by simp)
            · simp [strictBoth, hj, hp1, hp2]
            · simp [strictTypeErr, hj, hp1, hp2]
            · intro v hv
              have : d = v := by simpa using hv
              subst this
              exact Or.inl ⟨rfl, by simp [strictBoth, hj, hp1, hp2]⟩

/-- Witness for C8 (amended): on input `garbage` the function fails with the
`ValueError` carrying the 200-character-truncated offending text. -/
theorem parse_llm_response_characterization_witness :
    "garbage" = String.mk ((preprocess ("garbage" : String).data).take 200) ∧
      ("garbage" : String).length ≤ 200 :=
  (parse_llm_response_characterization "garbage").1 "garbage" rfl

/-- C8 (counterexample): the strict-JSON step performs no type validation —
on `{"downgraded": 1, "hype_score": 2}` the function returns a value whose
`downgraded` field is the integer 1, not a string. -/
theorem parse_llm_response_untyped_cex :
    parse_llm_response "\x7b\"downgraded\": 1, \"hype_score\": 2\x7d" =
        .ok (.obj [("downgraded", .int 1), ("hype_score", .int 2)]) ∧
      ∀ s : String, JValue.int 1 ≠ JValue.str s :=
  ⟨rfl, fun _ h => JValue.noConfusion h⟩

/-! ## Round-trip lemmas (C9) -/

theorem hexVal_hexDigit (k : Nat) (h : k < 16) : hexVal (hexDigit k) = some k := by
  interval_cases k <;> decide

theorem escChar_length_pos (c : Char) : 1 ≤ (escChar c).length := by
  unfold escChar
  split
  · simp
  · split
    · simp
    · split
      · simp
      · split
        · simp
        · split
          · simp
          · split <;> simp

theorem escStr_length_ge (cs : List Char) : cs.length ≤ (escStr cs).length := by
  induction cs with
  | nil => simp [escStr]
  | cons c cs ih =>
    have := escChar_length_pos c
    simp [escStr]
    omega

theorem parseStringBody_escStr (cs : List Char) :
    ∀ (F : Nat) (rest : List Char), cs.length < F →
      parseStringBody F (escStr cs ++ ('"' :: rest)) = some (cs, rest) := by
  induction cs with
  | nil =>
    intro F rest hF
    match F with
    | F + 1 => simp [escStr, parseStringBody]
  | cons c cs ih =>
    intro F rest hF
    match F with
    | F + 1 =>
      have hF' : cs.length < F := by
        simp at hF
        omega
      have hrec := ih F rest hF'
      by_cases h1 : c = '"'
      · subst h1
        simp [escStr, escChar, parseStringBody, simpleEsc, consChar, hrec]
      · by_cases h2 : c = '\\'
        · subst h2
          simp [escStr, escChar, parseStringBody, simpleEsc, consChar, hrec]
        · by_cases h3 : c = '\n'
          · subst h3
            simp [escStr, escChar, parseStringBody, simpleEsc, consChar, hrec]
          · by_cases h4 : c = '\t'
            · subst h4
              simp [escStr, escChar, parseStringBody, simpleEsc, consChar, hrec]
            · by_cases h5 : c = '\r'
              · subst h5
                simp [escStr, escChar, parseStringBody, simpleEsc, consChar,
                  hrec]
              · by_cases h6 : c.toNat < 0x20
                · have hdiv : c.toNat / 16 < 16 := by omega
                  have hmod : c.toNat % 16 < 16 := by omega
                  have hx4 : hex4 '0' '0' (hexDigit (c.toNat / 16))
                      (hexDigit (c.toNat % 16)) = some c.toNat := by
                    simp [hex4, hexVal_hexDigit _ hdiv, hexVal_hexDigit _ hmod]
                    have h0 : hexVal '0' = some 0 := by decide
                    simp [h0]
                    omega
                  have hsur : ¬ (0xD800 ≤ c.toNat ∧ c.toNat ≤ 0xDBFF) := by
                    omega
                  simp [escStr, escChar, h1, h2, h3, h4, h5, h6,
                    parseStringBody, hx4, hsur, consCp, consChar, hrec,
                    Char.ofNat_toNat]
                · have h6n : ¬ c.toNat < 0x20 := h6
                  simp [escStr, escChar, h1, h2, h3, h4, h5, h6n,
                    parseStringBody, consChar, hrec]

theorem digitChar_facts (k : Nat) (h : k < 10) :
    (Char.ofNat (48 + k)).toNat = 48 + k ∧
      (Char.ofNat (48 + k)).isDigit = true ∧
      (0 < k → Char.ofNat (48 + k) ≠ '0') := by
  interval_cases k <;> exact ⟨by decide, by decide, by decide⟩

theorem natDigits_spec (n : Nat) :
    ∃ c ds, natDigits n = c :: ds ∧ c.isDigit = true ∧
      (0 < n → c ≠ '0') ∧ (∀ x ∈ ds, x.isDigit = true) := by
  induction n using Nat.strong_induction_on with
  | _ n ih =>
    by_cases h : n < 10
    · exact ⟨Char.ofNat (48 + n), [], by simp [natDigits, h],
        (digitChar_facts n h).2.1, (digitChar_facts n h).2.2, by simp⟩
    · have h10 : n / 10 < n := Nat.div_lt_self (by omega) (by omega)
      obtain ⟨c, ds, heq, hdig, hnz, hall⟩ := ih (n / 10) h10
      refine ⟨c, ds ++ [Char.ofNat (48 + n % 10)], ?_, hdig, ?_, ?_⟩
      · rw [natDigits]
        simp [h, heq]
      · intro _
        exact hnz (by omega)
      · intro x hx
        rcases List.mem_append.mp hx with hx | hx
        · exact hall x hx
        · simp at hx
          subst hx
          exact (digitChar_facts (n % 10) (by omega)).2.1

theorem digitsVal_natDigits (n : Nat) : digitsVal (natDigits n) = n := by
  induction n using Nat.strong_induction_on with
  | _ n ih =>
    by_cases h : n < 10
    · have hc := (digitChar_facts n h).1
      rw [natDigits]
      simp [h, digitsVal]
      omega
    · have h10 : n / 10 < n := Nat.div_lt_self (by omega) (by omega)
      have hlast := (digitChar_facts (n % 10) (by omega)).1
      have happ : digitsVal (natDigits (n / 10) ++ [Char.ofNat (48 + n % 10)]) =
          digitsVal (natDigits (n / 10)) * 10 +
            ((Char.ofNat (48 + n % 10)).toNat - 48) := by
        simp [digitsVal, List.foldl_append]
      rw [natDigits]
      simp only [h, dite_false]
      rw [happ, ih (n / 10) h10, hlast]
      omega

theorem takeDigits_append (ds : List Char) (rest : List Char)
    (h : ∀ x ∈ ds, x.isDigit = true)
    (hr : ∀ c, rest.head? = some c → c.isDigit = false) :
    takeDigits (ds ++ rest) = (ds, rest) := by
  induction ds with
  | nil =>
    cases rest with
    | nil => simp [takeDigits]
    | cons c tl => simp [takeDigits, hr c rfl]
  | cons c tl ih =>
    have hc : c.isDigit = true := h c (by simp)
    have htl := ih fun x hx => h x (by simp [hx])
    simp [takeDigits, hc, htl]

theorem parseNumber_natDigits (neg : Bool) (m : Nat) (rs : List Char) :
    parseNumber neg (natDigits m ++ '\x7d' :: rs) =
      some (.int (if neg then -(m : Int) else (m : Int)), '\x7d' :: rs) := by
  have hbrace : ∀ c : Char, ('\x7d' :: rs).head? = some c → c.isDigit = false := by
    intro c hc
    simp at hc
    subst hc
    decide
  by_cases hm : m = 0
  · subst hm
    have h0 : natDigits 0 = ['0'] := by
      rw [natDigits]
      norm_num
    rw [h0]
    cases neg <;>
      simp [parseNumber, afterIntPart, matchFrac, matchExp, digitsVal]
  · obtain ⟨c, ds, heq, hdig, hnz, hall⟩ := natDigits_spec m
    have hc0 : c ≠ '0' := hnz (by omega)
    have hval : digitsVal (c :: ds) = m := by
      rw [← heq, digitsVal_natDigits]
    have htd : takeDigits (ds ++ '\x7d' :: rs) = (ds, '\x7d' :: rs) :=
      takeDigits_append ds _ hall hbrace
    rw [heq]
    simp [parseNumber, hc0, hdig, htd, afterIntPart, matchFrac, matchExp, hval]

theorem digit_not_special (c : Char) (h : c.isDigit = true) :
    c ≠ '\x7b' ∧ c ≠ '[' ∧ c ≠ '"' ∧ c ≠ 't' ∧ c ≠ 'f' ∧ c ≠ 'n' ∧
      c ≠ 'N' ∧ c ≠ 'I' ∧ c ≠ '-' ∧ isJsonWs c = false ∧ isPyWs c = false := by
  have hne : ∀ x : Char, x.isDigit = false → c ≠ x := by
    intro x hx hcx
    subst hcx
    rw [h] at hx
    exact Bool.noConfusion hx
  refine ⟨hne _ (by decide), hne _ (by decide), hne _ (by decide),
    hne _ (by decide), hne _ (by decide), hne _ (by decide),
    hne _ (by decide), hne _ (by decide), hne _ (by decide), ?_, ?_⟩
  · simp only [isJsonWs, decide_eq_false_iff_not]
    rintro (rfl | rfl | rfl | rfl) <;> exact absurd h (by decide)
  · simp only [isPyWs, decide_eq_false_iff_not]
    rintro (rfl | rfl | rfl | rfl | rfl | rfl) <;> exact absurd h (by decide)

theorem parseValue_intLex (F : Nat) (n : Int) (rs : List Char) :
    parseValue (F + 1) (intLexL n ++ '\x7d' :: rs) =
      some (.int n, '\x7d' :: rs) := by
  by_cases hneg : n < 0
  · rw [intLexL, if_pos hneg]
    obtain ⟨c, ds, heq, hdig, hnz, hall⟩ := natDigits_spec n.natAbs
    have habs : -((n.natAbs : Nat) : Int) = n := by omega
    simp only [List.cons_append]
    simp [parseValue]
    split
    · exfalso
      rename_i hmatch
      rw [heq] at hmatch
      simp at hmatch
      obtain ⟨hcI, _⟩ := hmatch
      rw [hcI] at hdig
      exact absurd hdig (by decide)
    · rw [parseNumber_natDigits true n.natAbs rs]
      simp
      rw [abs_of_neg hneg, neg_neg]
  · rw [intLexL, if_neg hneg]
    obtain ⟨c, ds, heq, hdig, hnz, hall⟩ := natDigits_spec n.toNat
    obtain ⟨hs1, hs2, hs3, hs4, hs5, hs6, hs7, hs8, hs9, _, _⟩ :=
      digit_not_special c hdig
    have htn : ((n.toNat : Nat) : Int) = n := by omega
    rw [heq]
    simp only [List.cons_append]
    simp [parseValue, hs1, hs2, hs3, hs4, hs5, hs6, hs7, hs8, hs9, hdig]
    rw [show c :: (ds ++ '\x7d' :: rs) = (c :: ds) ++ '\x7d' :: rs from rfl,
      ← heq, parseNumber_natDigits false n.toNat rs]
    simp [htn]

theorem dropWhile_intLex (n : Int) (rest : List Char) :
    List.dropWhile isJsonWs (intLexL n ++ rest) = intLexL n ++ rest := by
  by_cases hneg : n < 0
  · rw [intLexL, if_pos hneg]
    simp [List.dropWhile, isJsonWs]
  · rw [intLexL, if_neg hneg]
    obtain ⟨c, ds, heq, hdig, _, _⟩ := natDigits_spec n.toNat
    obtain ⟨_, _, _, _, _, _, _, _, _, hws, _⟩ := digit_not_special c hdig
    rw [heq]
    simp [List.dropWhile, hws]

theorem parseStringBody_escStr_call (cs rest : List Char) :
    parseStringBody ((escStr cs ++ ('"' :: rest)).length + 1)
      (escStr cs ++ ('"' :: rest)) = some (cs, rest) := by
  apply parseStringBody_escStr
  have := escStr_length_ge cs
  simp
  omega

theorem parseValue_objStart (G : Nat) (rest : List Char) :
    parseValue (G + 1) ('\x7b' :: rest) =
      (match skipJsonWs rest with
        | '\x7d' :: r2 => some (.obj [], r2)
        | r2 => parseMembers G r2 []) := by
  simp [parseValue]

theorem parseValue_string (G : Nat) (rest : List Char) :
    parseValue (G + 1) ('"' :: rest) =
      (match parseStringBody (rest.length + 1) rest with
        | some (s, r2) => some (.str (String.mk s), r2)
        | none => none) := by
  simp [parseValue]

theorem parseValue_encodePair (F : Nat) (d : List Char) (n : Int) :
    parseValue (F + 4) (encodePairL d n) =
      some (.obj [("downgraded", .str (String.mk d)),
                  ("hype_score", .int n)], []) := by
  have hdk : ∀ X : List Char,
      parseStringBody ((dkChars ++ ('"' :: X)).length + 1)
        (dkChars ++ ('"' :: X)) = some (dkChars, X) := by
    intro X
    have h := parseStringBody_escStr_call dkChars X
    rw [show escStr dkChars = dkChars from rfl] at h
    exact h
  have hhk : ∀ X : List Char,
      parseStringBody ((hkChars ++ ('"' :: X)).length + 1)
        (hkChars ++ ('"' :: X)) = some (hkChars, X) := by
    intro X
    have h := parseStringBody_escStr_call hkChars X
    rw [show escStr hkChars = hkChars from rfl] at h
    exact h
  have hmkdk : String.mk dkChars = "downgraded" := rfl
  have hmkhk : String.mk hkChars = "hype_score" := rfl
  have w1 : isJsonWs ':' = false := by decide
  have w2 : isJsonWs ' ' = true := by decide
  have w3 : isJsonWs ',' = false := by decide
  have w4 : isJsonWs '"' = false := by decide
  have w5 : isJsonWs '\x7d' = false := by decide
  unfold encodePairL
  simp [parseValue_objStart, parseValue_string, parseValue_intLex,
    parseMembers, hdk, hhk, parseStringBody_escStr_call, dropWhile_intLex,
    skipJsonWs, List.dropWhile_cons, w1, w2, w3, w4, w5, hmkdk, hmkhk,
    -List.length_append, -List.length_cons]

theorem jsonLoads_encodePair (d : List Char) (n : Int) :
    jsonLoads (encodePairL d n) =
      some (.obj [("downgraded", .str (String.mk d)),
                  ("hype_score", .int n)]) := by
  have hskip : skipJsonWs (encodePairL d n) = encodePairL d n := by
    rw [encodePairL]
    simp [skipJsonWs, List.dropWhile_cons, isJsonWs]
  have hlen : 3 ≤ (encodePairL d n).length := by
    rw [encodePairL]
    simp
    omega
  have hfuel : (encodePairL d n).length + 1 =
      ((encodePairL d n).length - 3) + 4 := by omega
  unfold jsonLoads
  rw [hskip]
  simp only [hfuel, parseValue_encodePair]
  simp [skipJsonWs]

theorem pyStripL_id (l : List Char)
    (h1 : ∀ c, l.head? = some c → isPyWs c = false)
    (h2 : ∀ c, l.getLast? = some c → isPyWs c = false) : pyStripL l = l := by
  unfold pyStripL
  have hd : l.dropWhile isPyWs = l := by
    cases l with
    | nil => simp
    | cons c tl => simp [List.dropWhile_cons, h1 c rfl]
  rw [hd]
  have hr : l.reverse.dropWhile isPyWs = l.reverse := by
    cases hl : l.reverse with
    | nil => simp
    | cons c tl =>
      have hlast : l.getLast? = some c := by
        rw [← List.head?_reverse, hl]
        rfl
      simp [List.dropWhile_cons, h2 c hlast]
  rw [hr, List.reverse_reverse]

theorem encodePairL_split (d : List Char) (n : Int) :
    encodePairL d n =
      ('\x7b' :: '"' :: (dkChars ++ ('"' :: ':' :: ' ' :: '"' ::
        (escStr d ++ ('"' :: ',' :: ' ' :: '"' ::
          (hkChars ++ ('"' :: ':' :: ' ' :: intLexL n))))))) ++ ['\x7d'] := by
  rw [encodePairL]
  simp

theorem encodePairL_getLast (d : List Char) (n : Int) :
    (encodePairL d n).getLast? = some '\x7d' := by
  rw [encodePairL_split, List.getLast?_concat]

theorem pyStripL_encodePair (d : List Char) (n : Int) :
    pyStripL (encodePairL d n) = encodePairL d n := by
  apply pyStripL_id
  · intro c hc
    rw [encodePairL] at hc
    simp at hc
    subst hc
    decide
  · intro c hc
    rw [encodePairL_getLast] at hc
    simp at hc
    subst hc
    decide

theorem stripLeadFence_encodePair (d : List Char) (n : Int) :
    stripLeadFence (encodePairL d n) = encodePairL d n := by
  rw [encodePairL]
  unfold stripLeadFence
  simp [dropLit]

theorem stripTrailFence_encodePair (d : List Char) (n : Int) :
    stripTrailFence (encodePairL d n) = encodePairL d n := by
  rw [encodePairL_split]
  unfold stripTrailFence
  simp [List.reverse_append, dropLit]

theorem preprocess_encodePair (d : List Char) (n : Int) :
    preprocess (encodePairL d n) = encodePairL d n := by
  unfold preprocess
  rw [pyStripL_encodePair, stripLeadFence_encodePair,
    stripTrailFence_encodePair, pyStripL_encodePair]

theorem dropWhile_enc_append (d : List Char) (n : Int) (tail : List Char) :
    List.dropWhile isPyWs (encodePairL d n ++ tail) =
      encodePairL d n ++ tail := by
  rw [encodePairL]
  simp [List.dropWhile_cons, isPyWs, List.cons_append]

theorem dropWhile_enc_reverse (d : List Char) (n : Int) :
    List.dropWhile isPyWs (encodePairL d n).reverse =
      (encodePairL d n).reverse := by
  rw [encodePairL_split]
  simp [List.reverse_append, List.dropWhile_cons, isPyWs]

theorem stripLeadFence_fencedJ (d : List Char) (n : Int) :
    stripLeadFence (['\x60', '\x60', '\x60', 'j', 's', 'o', 'n', '\n'] ++
        (encodePairL d n ++ ['\n', '\x60', '\x60', '\x60'])) =
      encodePairL d n ++ ['\n', '\x60', '\x60', '\x60'] := by
  unfold stripLeadFence
  simp [dropLit, List.cons_append, List.dropWhile_cons, isPyWs,
    dropWhile_enc_append]

theorem stripLeadFence_fencedP (d : List Char) (n : Int) :
    stripLeadFence (['\x60', '\x60', '\x60', '\n'] ++
        (encodePairL d n ++ ['\n', '\x60', '\x60', '\x60'])) =
      encodePairL d n ++ ['\n', '\x60', '\x60', '\x60'] := by
  unfold stripLeadFence
  simp [dropLit, List.cons_append, List.dropWhile_cons, isPyWs,
    dropWhile_enc_append]

theorem stripTrailFence_fenced (d : List Char) (n : Int) :
    stripTrailFence (encodePairL d n ++ ['\n', '\x60', '\x60', '\x60']) =
      encodePairL d n := by
  unfold stripTrailFence
  have hrev : (encodePairL d n ++ ['\n', '\x60', '\x60', '\x60']).reverse =
      '\x60' :: '\x60' :: '\x60' :: '\n' :: (encodePairL d n).reverse := by
    simp
  rw [hrev]
  simp [dropLit, List.dropWhile_cons, isPyWs, dropWhile_enc_reverse]

theorem pyStripL_fencedJ (d : List Char) (n : Int) :
    pyStripL (['\x60', '\x60', '\x60', 'j', 's', 'o', 'n', '\n'] ++
        (encodePairL d n ++ ['\n', '\x60', '\x60', '\x60'])) =
      ['\x60', '\x60', '\x60', 'j', 's', 'o', 'n', '\n'] ++
        (encodePairL d n ++ ['\n', '\x60', '\x60', '\x60']) := by
  apply pyStripL_id
  · intro c hc
    simp at hc
    subst hc
    decide
  · intro c hc
    rw [List.getLast?_append, List.getLast?_append] at hc
    simp at hc
    subst hc
    decide

theorem pyStripL_fencedP (d : List Char) (n : Int) :
    pyStripL (['\x60', '\x60', '\x60', '\n'] ++
        (encodePairL d n ++ ['\n', '\x60', '\x60', '\x60'])) =
      ['\x60', '\x60', '\x60', '\n'] ++
        (encodePairL d n ++ ['\n', '\x60', '\x60', '\x60']) := by
  apply pyStripL_id
  · intro c hc
    simp at hc
    subst hc
    decide
  · intro c hc
    rw [List.getLast?_append, List.getLast?_append] at hc
    simp at hc
    subst hc
    decide

theorem preprocess_fencedJ (d : List Char) (n : Int) :
    preprocess (['\x60', '\x60', '\x60', 'j', 's', 'o', 'n', '\n'] ++
        (encodePairL d n ++ ['\n', '\x60', '\x60', '\x60'])) =
      encodePairL d n := by
  unfold preprocess
  rw [pyStripL_fencedJ, stripLeadFence_fencedJ, stripTrailFence_fenced,
    pyStripL_encodePair]

theorem preprocess_fencedP (d : List Char) (n : Int) :
    preprocess (['\x60', '\x60', '\x60', '\n'] ++
        (encodePairL d n ++ ['\n', '\x60', '\x60', '\x60'])) =
      encodePairL d n := by
  unfold preprocess
  rw [pyStripL_fencedP, stripLeadFence_fencedP, stripTrailFence_fenced,
    pyStripL_encodePair]

theorem parse_llm_response_of_preprocess (t : String) (d : String) (n : Int)
    (ht : preprocess t.data = encodePairL d.data n) :
    parse_llm_response t =
      .ok (.obj [("downgraded", .str d), ("hype_score", .int n)]) := by
  have hmk : String.mk d.data = d := rfl
  unfold parse_llm_response
  simp only [ht, jsonLoads_encodePair, hmk]
  simp [pyIn]

/-- C9: for every string `downgraded` value and every integer `hype_score`
value, JSON-encoding the pair and running `parse_llm_response` on the result
recovers exactly the same pair, and wrapping the encoded JSON in a fenced
code block — tagged (```json) or untagged (```) — parses identically. -/
theorem encode_parse_roundtrip (d : String) (n : Int) :
    parse_llm_response (encodePair d n) =
        .ok (.obj [("downgraded", .str d), ("hype_score", .int n)]) ∧
      parse_llm_response ("```json\n" ++ encodePair d n ++ "\n```") =
        .ok (.obj [("downgraded", .str d), ("hype_score", .int n)]) ∧
      parse_llm_response ("```\n" ++ encodePair d n ++ "\n```") =
        .ok (.obj [("downgraded", .str d), ("hype_score", .int n)]) := by
  refine ⟨?_, ?_, ?_⟩
  · apply parse_llm_response_of_preprocess
    have h0 : (encodePair d n).data = encodePairL d.data n := rfl
    rw [h0, preprocess_encodePair]
  · apply parse_llm_response_of_preprocess
    have h1 : ("```json\n" ++ encodePair d n ++ "\n```").data =
        ['\x60', '\x60', '\x60', 'j', 's', 'o', 'n', '\n'] ++
          (encodePairL d.data n ++ ['\n', '\x60', '\x60', '\x60']) := by
      rw [String.data_append, String.data_append]
      simp only [List.append_assoc]
      rfl
    rw [h1, preprocess_fencedJ]
  · apply parse_llm_response_of_preprocess
    have h1 : ("```\n" ++ encodePair d n ++ "\n```").data =
        ['\x60', '\x60', '\x60', '\n'] ++
          (encodePairL d.data n ++ ['\n', '\x60', '\x60', '\x60']) := by
      rw [String.data_append, String.data_append]
      simp only [List.append_assoc]
      rfl
    rw [h1, preprocess_fencedP]

/-- Witness for C7: a raw `hype_score` of 15 is clamped to 10. -/
theorem hype_score_clamped_witness :
    (⟨"t", "x", 10, "normal", "en"⟩ : DowngradeResponse).hype_score =
        max 1 (min 10 15) ∧
      ((15 : Int) < 1 →
        (⟨"t", "x", 10, "normal", "en"⟩ : DowngradeResponse).hype_score = 1) ∧
      ((10 : Int) < 15 →
        (⟨"t", "x", 10, "normal", "en"⟩ : DowngradeResponse).hype_score = 10) :=
  hype_score_clamped.2 "t" "normal" "en"
    [("downgraded", .str "x"), ("hype_score", .int 15)]
    ⟨"t", "x", 10, "normal", "en"⟩ 15 rfl rfl

end TitleDowngrader
